import Mathlib

/-!
Verification of the tick-based train simulation engine (`game.py`).

The Python source is shallowly embedded below:
* Python `int` becomes `Int` (or `Nat` where the source value is a count that
  starts non-negative and only grows, e.g. `distance_travelled`);
* mutation of objects becomes explicit state passing on immutable records;
* the `defaultdict(lambda: 0)` passenger map becomes an association list with
  lookup defaulting to `0` (`getPassengers` / `setPassengers`);
* `secrets.randbelow(n)` is modelled by an injectable draw source: a draw
  `r : Nat` is reduced to the result `r % n`, which ranges over exactly the
  values `randbelow` can return when `n > 0` (the only case reachable in the
  program, as proved below);
* the float expressions of the source are embedded by exact integer formulas
  that agree with the source's IEEE-754 evaluation on the whole reachable
  domain (see the comments at `get_passenger_range` and `gasCost`);
* `input()`-driven control flow becomes a `Cmd` datatype, and an uncaught
  Python exception becomes the `none` result of `gameloop`.
-/

namespace TrainGame

/-- The `StationStatusEnum` of the source. -/
inductive StationStatusEnum where
  | ST_UNUSED
  | ST_ENABLED
  | ST_DISABLED
deriving DecidableEq, Fintype

/-- The `StationClassEnum` of the source: five tiers, tier 1 largest. -/
inductive StationClassEnum where
  | CLASS_1
  | CLASS_2
  | CLASS_3
  | CLASS_4
  | CLASS_5
deriving DecidableEq, Fintype

/-- The `IntEnum` numeric value of a station class. -/
def StationClassEnum.value : StationClassEnum → Nat
  | .CLASS_1 => 1
  | .CLASS_2 => 2
  | .CLASS_3 => 3
  | .CLASS_4 => 4
  | .CLASS_5 => 5

/-- The function `StationClassEnum.get_passenger_range(lhs_class, rhs_class)`.

The source computes `int(base_result*0.8)`, `int(base_result*1.2)` and
`int(base_result*0.64)` with IEEE-754 doubles.  For every reachable
`base_result` (a value of `(1+lo)*hi` with `1 ≤ lo ≤ hi ≤ 5`) the double
computation truncates to exactly the rational floors `base*8/10`,
`base*12/10` and `base*64/100`: the representation errors of the literals
(`0.8` and `0.64` are stored slightly above their exact values, `1.2`
slightly below) never move a product across an integer boundary on this
domain.  The embedding therefore uses exact natural-number division. -/
def get_passenger_range (lhs_class rhs_class : StationClassEnum) : Nat × Nat :=
  let level_lhs := 6 - lhs_class.value
  let level_rhs := 6 - rhs_class.value
  let swapped :=
    if level_lhs > level_rhs then (level_rhs, level_lhs, true)
    else (level_lhs, level_rhs, false)
  let base_multiplier := 1 + swapped.1
  let base_result := base_multiplier * swapped.2.1
  if !swapped.2.2 then (base_result * 8 / 10, base_result * 12 / 10)
  else (base_result * 64 / 100, base_result * 8 / 10)

/-- The spec's wording of `dailyPassengerRange`: `levelFrom = 6-fromTier`,
`levelTo = 6-toTier`, `lo`/`hi` their min/max, `base = (1+lo)*hi`, band chosen
by comparing the original (pre-swap) levels. -/
def dailyPassengerRange_spec (fromClass toClass : StationClassEnum) : Nat × Nat :=
  let levelFrom := 6 - fromClass.value
  let levelTo := 6 - toClass.value
  let lo := min levelFrom levelTo
  let hi := max levelFrom levelTo
  let base := (1 + lo) * hi
  if levelFrom ≤ levelTo then (base * 8 / 10, base * 12 / 10)
  else (base * 64 / 100, base * 8 / 10)

/-- The function `StationClassEnum.get_maintance_fee` of the source. -/
def get_maintance_fee : StationClassEnum → Int
  | .CLASS_1 => 250
  | .CLASS_2 => 200
  | .CLASS_3 => 150
  | .CLASS_4 => 100
  | .CLASS_5 => 50

/-- The function `StationClassEnum.get_capacity` of the source (defined but not consumed by
the train logic in this revision). -/
def get_capacity : StationClassEnum → Int
  | .CLASS_1 => 1200
  | .CLASS_2 => 900
  | .CLASS_3 => 650
  | .CLASS_4 => 400
  | .CLASS_5 => 175

/-- The `passengers` field of a `Station`: the source's
`defaultdict(lambda: 0)` keyed by destination-station id, embedded as an
association list whose lookup defaults to `0`. -/
def getPassengers (ps : List (String × Int)) (k : String) : Int :=
  match ps.find? (fun p => p.1 == k) with
  | some p => p.2
  | none => 0

/-- Assignment `d[k] = v` on the passenger map.  Any extensionally correct update of the
key-value mapping is a faithful embedding of the Python dict (iteration order
is consumed only by the excluded presentation layer); this one prepends the
new binding and drops the old one. -/
def setPassengers (ps : List (String × Int)) (k : String) (v : Int) : List (String × Int) :=
  (k, v) :: ps.filter (fun p => !(p.1 == k))

/-- The `Station` dataclass.  `map_regions`-related naming data is cosmetic
(spec §1 excludes it); `name` is carried as an inert string.  `pos_x`/`pos_y`
are `Int` so that coordinate differences are exact. -/
structure Station where
  pos_x : Int
  pos_y : Int
  status : StationStatusEnum
  station_class : StationClassEnum
  passengers : List (String × Int)
  buy_pricing : Int
  id : String
  name : String
deriving DecidableEq

/-- The squared Euclidean distance between two stations, an exact natural
number (`pow(dx,2) + pow(dy,2)` of the source before `sqrt`). -/
def distSq (a b : Station) : Nat :=
  ((a.pos_x - b.pos_x) ^ 2 + (a.pos_y - b.pos_y) ^ 2).toNat

/-- Truncation `int(a.distance(b))`: the truncated Euclidean distance the source
compares against.  `float(sqrt)` is correctly rounded and, for the magnitudes
reachable here (squared distances below `2·1023²`), truncating it agrees
exactly with `Nat.sqrt` of the squared distance. -/
def intDistance (a b : Station) : Nat :=
  Nat.sqrt (distSq a b)

/-- The cost `int(GAS_FEE * from_station.distance(to_station))` with
`GAS_FEE = 0.46`.  Exactly, `floor(0.46·√n) = floor(√(46²·n))/100`, and on the
reachable domain the double computation of the source agrees with this exact
value (the literal `0.46` is stored slightly above `46/100` and the error
never crosses an integer boundary). -/
def gasCost (a b : Station) : Nat :=
  Nat.sqrt (46 * 46 * distSq a b) / 100

/-- The function `Station.get_station_by_id`: first station in the list with the given id,
else `None`. -/
def get_station_by_id (stations : List Station) (id : String) : Option Station :=
  stations.find? (fun st => st.id == id)

/-- The `TrainV1` dataclass.  The source stores references to the (mutable)
station objects; the embedding snapshots the station values at dispatch time,
which is faithful because train logic reads only the immutable `pos_x`,
`pos_y` and `id` fields of the endpoints. -/
structure TrainV1 where
  from_station : Station
  to_station : Station
  speed : Nat
  capacity : Int
  ticket_price : Int
  passengers : Int
  distance_travelled : Nat
deriving DecidableEq

/-- A calendar date, embedding Python's `datetime.date`. -/
structure GameDate where
  year : Int
  month : Nat
  day : Nat
deriving DecidableEq

/-- Gregorian leap-year rule, as implemented by `datetime`. -/
def isLeapYear (y : Int) : Bool :=
  y % 4 == 0 && (y % 100 != 0 || y % 400 == 0)

/-- Number of days in a Gregorian month. -/
def daysInMonth (y : Int) (m : Nat) : Nat :=
  if m = 2 then (if isLeapYear y then 29 else 28)
  else if m = 4 ∨ m = 6 ∨ m = 9 ∨ m = 11 then 30
  else 31

/-- Advance `self.date + timedelta(days=1)`. -/
def nextDay (d : GameDate) : GameDate :=
  if d.day < daysInMonth d.year d.month then { d with day := d.day + 1 }
  else if d.month < 12 then { year := d.year, month := d.month + 1, day := 1 }
  else { year := d.year + 1, month := 1, day := 1 }

/-- The mutable state of a `Game` instance.  `map_regions` and
`station_names` feed only the excluded naming/presentation subsystem and are
not part of the engine state. -/
structure Game where
  date : GameDate
  stations : List Station
  trains_v1 : List TrainV1
  money : Int
deriving DecidableEq

/-- One loop iteration of `Game._auto_train_v1`: advance the train by its
speed, then either credit the fare and drop it (arrival) or keep it. -/
def autoTrainStep (acc : List TrainV1 × Int) (train : TrainV1) : List TrainV1 × Int :=
  let train := { train with distance_travelled := train.distance_travelled + train.speed }
  if train.distance_travelled > intDistance train.from_station train.to_station then
    (acc.1, acc.2 + train.ticket_price * train.passengers)
  else (acc.1 ++ [train], acc.2)

/-- The method `Game._auto_train_v1`: run every tracked train one tick forward,
crediting arrivals and keeping the rest (in order). -/
def auto_train_v1 (g : Game) : Game :=
  let folded := g.trains_v1.foldl autoTrainStep ([], g.money)
  { g with trains_v1 := folded.1, money := folded.2 }

/-- Total maintenance bill of a station list: the sum of
`get_maintance_fee` over the stations with status `ST_ENABLED`. -/
def maintTotal (stations : List Station) : Int :=
  ((stations.filter (fun st => st.status == .ST_ENABLED)).map
    (fun st => get_maintance_fee st.station_class)).sum

/-- The method `Game._station_maintance`: on the 1st of a month, debit the fee of every
enabled station, one by one. -/
def station_maintance (g : Game) : Game :=
  if g.date.day ≠ 1 then g
  else g.stations.foldl
    (fun g' st =>
      if st.status = .ST_ENABLED then
        { g' with money := g'.money - get_maintance_fee st.station_class }
      else g')
    g

/-- The injectable random source for passenger generation: `rand fid tid` is
the raw draw used for the ordered station pair with those ids (the source
consumes one fresh `randbelow` value per generated pair). -/
abbrev RandSrc := String → String → Nat

/-- The body of the nested loop of `Game._add_passenger` for one ordered pair
`(acc, to_station)` with raw draw `r`: skip self-pairs and non-enabled
endpoints, otherwise add `randbelow(hi - lo) + lo` passengers for the
destination.  `randbelow(n)` is embedded as `r % n`, the exact image of
`randbelow` for `n > 0`; `n > 0` holds for every class pair (proved below),
the source having no guard for an empty range. -/
def addForPair (acc to_station : Station) (r : Nat) : Station :=
  if acc.id == to_station.id || acc.status != .ST_ENABLED
      || to_station.status != .ST_ENABLED then acc
  else
    let range := get_passenger_range acc.station_class to_station.station_class
    let new_passengers : Int := Int.ofNat (r % (range.2 - range.1) + range.1)
    { acc with passengers := (setPassengers acc.passengers to_station.id
        (getPassengers acc.passengers to_station.id + new_passengers)) }

/-- The inner loop of `Game._add_passenger` for one origin station: fold the
pair body over every candidate destination. -/
def passRow (g : Game) (rand : RandSrc) (from_station : Station) : Station :=
  g.stations.foldl (fun acc to_station => addForPair acc to_station (rand from_station.id to_station.id))
    from_station

/-- The method `Game._add_passenger`: every origin station accumulates the draws of its
row.  (The source mutates each origin in place; only `passengers` fields
change, and the inner loop reads only immutable fields of the destinations,
so the row-wise functional update is faithful.) -/
def add_passenger (g : Game) (rand : RandSrc) : Game :=
  { g with stations := g.stations.map (passRow g rand) }

/-- Assignment `self.date = self.date + timedelta(days=1)` inside `Game.tick`. -/
def advance_date (g : Game) : Game :=
  { g with date := nextDay g.date }

/-- The four state-advancing phases of `Game.tick`, in source order: train
transit, date advance, maintenance, passenger generation. -/
def tickPhases (g : Game) (rand : RandSrc) : Game :=
  add_passenger (station_maintance (advance_date (auto_train_v1 g))) rand

/-- The method `Game.tick`: the four phases, then the solvency check;
`OutOfMoneyException` becomes the `-1` component (state mutations already
applied when it is raised). -/
def tick (g : Game) (rand : RandSrc) : Game × Int :=
  let g4 := tickPhases g rand
  if g4.money < 0 then (g4, -1) else (g4, 0)

/-- In-place mutation of a station object found by `get_station_by_id`:
replace the first station in the list with the given id (the object the
source mutated) by its updated value. -/
def updateFirstById (stations : List Station) (id : String) (new : Station) : List Station :=
  match stations with
  | [] => []
  | st :: rest =>
    if st.id == id then new :: rest else st :: updateFirstById rest id new

/-- One interaction of `Game.gameloop`: the prompt answer plus the follow-up
`input()` answers the chosen branch consumes.  Any prompt other than the
recognized letters falls through to `tick` exactly like `"c"`. -/
inductive Cmd where
  | show_stations
  | show_trains
  | cont
  | quit
  | calculator (ids : List String)
  | create_train (from_id to_id confirm : String)
  | buy (station_id confirm : String)
  | unrecognized
deriving DecidableEq

/-- The method `Game.gameloop` for one command.  The result is `none` when an uncaught
Python exception escapes the branch (only the buy branch can raise one: it
reads `.status` of the `get_station_by_id` result without a `None` check).
The calculator branch catches its own exceptions and, when both ids resolve,
falls through to `tick`. -/
def gameloop (g : Game) (c : Cmd) (rand : RandSrc) : Option (Game × Int) :=
  match c with
  | .show_stations => some (g, 0)
  | .show_trains => some (g, 0)
  | .cont => some (tick g rand)
  | .quit => some (g, -1)
  | .unrecognized => some (tick g rand)
  | .calculator ids =>
    match ids with
    | [id0, id1] =>
      match get_station_by_id g.stations id0, get_station_by_id g.stations id1 with
      | some _, some _ => some (tick g rand)
      | _, _ => some (g, 0)
    | _ => some (g, 0)
  | .create_train from_id to_id confirm =>
    match get_station_by_id g.stations from_id with
    | none => some (g, 0)
    | some from_station =>
      match get_station_by_id g.stations to_id with
      | none => some (g, 0)
      | some to_station =>
        let cost : Int := (gasCost from_station to_station : Int)
        let delivered : Int := min 240 (getPassengers from_station.passengers to_id)
        if confirm = "y" then
          let from_station' := { from_station with passengers :=
            (setPassengers from_station.passengers to_id
              (getPassengers from_station.passengers to_id - delivered)) }
          some ({ g with
            money := g.money - cost,
            stations := updateFirstById g.stations from_id from_station',
            trains_v1 := g.trains_v1 ++
              [{ from_station := from_station', to_station := to_station, speed := 80,
                 capacity := 240, ticket_price := 12, passengers := delivered,
                 distance_travelled := 0 }] }, 0)
        else some (g, 0)
  | .buy station_id confirm =>
    match get_station_by_id g.stations station_id with
    | none => none
    | some station =>
      if station.status = .ST_UNUSED then
        if g.money - station.buy_pricing < 0 then some (g, 0)
        else if confirm = "y" then
          some ({ g with
            stations := (updateFirstById g.stations station_id
              { station with status := .ST_ENABLED }),
            money := g.money - station.buy_pricing }, 0)
        else some (g, 0)
      else some (g, 0)

/-- The `main` loop: run `gameloop` on each interaction in turn, stopping at
the first nonzero signal (quit or bankruptcy); `none` when a command crashed. -/
def mainLoop (g : Game) : List (Cmd × RandSrc) → Option Game
  | [] => some g
  | (c, rand) :: rest =>
    match gameloop g c rand with
    | none => none
    | some (g', signal) => if signal ≠ 0 then some g' else mainLoop g' rest

/-- A fixed all-zero random source, used to evaluate theorems on closed
inputs. -/
def randZero : RandSrc := fun _ _ => 0

/-- A concrete enabled tier-5 station at the origin. -/
def stA : Station :=
  { pos_x := 0, pos_y := 0, status := .ST_ENABLED, station_class := .CLASS_5,
    passengers := [], buy_pricing := 300, id := "aa", name := "A" }

/-- A concrete enabled tier-5 station 800 units east of `stA`. -/
def stB : Station :=
  { pos_x := 800, pos_y := 0, status := .ST_ENABLED, station_class := .CLASS_5,
    passengers := [], buy_pricing := 300, id := "bb", name := "B" }

/-- A concrete train from `stA` to `stB`: speed 80 over distance 800. -/
def trainAB : TrainV1 :=
  { from_station := stA, to_station := stB, speed := 80, capacity := 240,
    ticket_price := 12, passengers := 100, distance_travelled := 0 }

/-- A concrete game tracking `trainAB`. -/
def gameTrain : Game :=
  { date := { year := 2024, month := 1, day := 15 }, stations := [stA, stB],
    trains_v1 := [trainAB], money := 1000 }

/-- Station `stA` with 300 passengers pending toward `"bb"`. -/
def stA3 : Station := { stA with passengers := [("bb", 300)] }

/-- Station `stB` moved to (3,4): Euclidean distance 5 from the origin. -/
def stB3 : Station := { stB with pos_x := 3, pos_y := 4 }

/-- A concrete game for exercising the dispatch command. -/
def gameDispatch : Game :=
  { date := { year := 2024, month := 1, day := 15 }, stations := [stA3, stB3],
    trains_v1 := [], money := 1000 }

/-- A concrete unowned station. -/
def stBuy : Station := { stA with status := .ST_UNUSED, id := "cc" }

/-- A concrete game able to afford `stBuy`. -/
def gameBuy : Game :=
  { date := { year := 2024, month := 1, day := 15 }, stations := [stBuy],
    trains_v1 := [], money := 2000 }

/-- The same game with too little money to buy `stBuy`. -/
def gamePoor : Game := { gameBuy with money := 5 }

/-- A concrete game with two enabled stations and no trains. -/
def gameGen : Game :=
  { date := { year := 2024, month := 1, day := 15 }, stations := [stA, stB],
    trains_v1 := [], money := 0 }

/-- A concrete game already in debt: its next tick must report bankruptcy. -/
def bankruptGame : Game :=
  { date := { year := 2024, month := 1, day := 15 }, stations := [],
    trains_v1 := [], money := -5 }

lemma find?_filter_ne (ps : List (String × Int)) (k k' : String) (h : k' ≠ k) :
    (ps.filter (fun p => !(p.1 == k))).find? (fun p => p.1 == k') =
      ps.find? (fun p => p.1 == k') := by
  induction ps with
  | nil => rfl
  | cons a rest ih =>
    by_cases ha : a.1 = k'
    · have hak : ¬ (a.1 = k) := by rw [ha]; exact h
      simp [List.filter_cons, List.find?_cons, hak, ha, h]
    · by_cases hak : a.1 = k
      · simp [List.filter_cons, List.find?_cons, hak, ih, Ne.symm h]
      · simp [List.filter_cons, List.find?_cons, hak, ha, ih]

lemma getPassengers_set_self (ps : List (String × Int)) (k : String) (v : Int) :
    getPassengers (setPassengers ps k v) k = v := by
  simp [getPassengers, setPassengers, List.find?_cons]

lemma getPassengers_set_ne (ps : List (String × Int)) (k k' : String) (v : Int)
    (h : k' ≠ k) :
    getPassengers (setPassengers ps k v) k' = getPassengers ps k' := by
  have hkk : ¬ (k = k') := fun hh => h hh.symm
  simp [getPassengers, setPassengers, List.find?_cons, hkk, find?_filter_ne ps k k' h]

lemma range_lo_pos_lt_hi :
    ∀ lc rc : StationClassEnum,
      1 ≤ (get_passenger_range lc rc).1 ∧
      (get_passenger_range lc rc).1 < (get_passenger_range lc rc).2 := by
  decide

lemma addForPair_id (a b : Station) (r : Nat) : (addForPair a b r).id = a.id := by
  unfold addForPair; split <;> rfl

lemma addForPair_status (a b : Station) (r : Nat) :
    (addForPair a b r).status = a.status := by
  unfold addForPair; split <;> rfl

lemma addForPair_station_class (a b : Station) (r : Nat) :
    (addForPair a b r).station_class = a.station_class := by
  unfold addForPair; split <;> rfl

lemma addForPair_mono (a b : Station) (r : Nat) (k : String) :
    getPassengers a.passengers k ≤ getPassengers (addForPair a b r).passengers k := by
  unfold addForPair
  split
  · exact le_refl _
  · by_cases hk : k = b.id
    · subst hk
      rw [getPassengers_set_self]
      have : (0 : Int) ≤ Int.ofNat (r % ((get_passenger_range a.station_class b.station_class).2
          - (get_passenger_range a.station_class b.station_class).1)
          + (get_passenger_range a.station_class b.station_class).1) := Int.ofNat_nonneg _
      omega
    · rw [getPassengers_set_ne _ _ _ _ hk]

lemma addForPair_strict (a b : Station) (r : Nat)
    (hne : a.id ≠ b.id) (ha : a.status = .ST_ENABLED) (hb : b.status = .ST_ENABLED) :
    getPassengers a.passengers b.id + 1 ≤
      getPassengers (addForPair a b r).passengers b.id := by
  unfold addForPair
  have hguard : (a.id == b.id || a.status != StationStatusEnum.ST_ENABLED
      || b.status != StationStatusEnum.ST_ENABLED) = false := by
    simp [ha, hb, hne]
  rw [if_neg (by simp [hguard])]
  rw [getPassengers_set_self]
  have hlo := (range_lo_pos_lt_hi a.station_class b.station_class).1
  have : (1 : Int) ≤ Int.ofNat (r % ((get_passenger_range a.station_class b.station_class).2
      - (get_passenger_range a.station_class b.station_class).1)
      + (get_passenger_range a.station_class b.station_class).1) := by
    have : 1 ≤ r % ((get_passenger_range a.station_class b.station_class).2
        - (get_passenger_range a.station_class b.station_class).1)
        + (get_passenger_range a.station_class b.station_class).1 := by omega
    simpa using Int.ofNat_le.mpr this
  omega

lemma foldl_addForPair_id (l : List Station) (a : Station) (rf : Station → Nat) :
    (l.foldl (fun acc b => addForPair acc b (rf b)) a).id = a.id := by
  induction l generalizing a with
  | nil => rfl
  | cons b rest ih =>
    simp only [List.foldl_cons]
    rw [ih, addForPair_id]

lemma foldl_addForPair_status (l : List Station) (a : Station) (rf : Station → Nat) :
    (l.foldl (fun acc b => addForPair acc b (rf b)) a).status = a.status := by
  induction l generalizing a with
  | nil => rfl
  | cons b rest ih =>
    simp only [List.foldl_cons]
    rw [ih, addForPair_status]

lemma foldl_addForPair_mono (l : List Station) (a : Station) (rf : Station → Nat) (k : String) :
    getPassengers a.passengers k ≤
      getPassengers ((l.foldl (fun acc b => addForPair acc b (rf b)) a)).passengers k := by
  induction l generalizing a with
  | nil => exact le_refl _
  | cons b rest ih =>
    simp only [List.foldl_cons]
    exact le_trans (addForPair_mono a b (rf b) k) (ih _)

lemma passRow_adds_at_least_one (g : Game) (rand : RandSrc) (a dst : Station)
    (hto : dst ∈ g.stations) (hne : a.id ≠ dst.id)
    (ha : a.status = .ST_ENABLED) (hb : dst.status = .ST_ENABLED) :
    getPassengers a.passengers dst.id + 1 ≤
      getPassengers (passRow g rand a).passengers dst.id := by
  obtain ⟨l1, l2, hsplit⟩ := List.append_of_mem hto
  unfold passRow
  rw [hsplit, List.foldl_append, List.foldl_cons]
  have hid1 : (l1.foldl (fun acc b => addForPair acc b (rand a.id b.id)) a).id = a.id :=
    foldl_addForPair_id l1 a _
  have hst1 : (l1.foldl (fun acc b => addForPair acc b (rand a.id b.id)) a).status = a.status :=
    foldl_addForPair_status l1 a _
  have hmono1 : getPassengers a.passengers dst.id ≤
      getPassengers ((l1.foldl (fun acc b => addForPair acc b (rand a.id b.id)) a)).passengers dst.id :=
    foldl_addForPair_mono l1 a _ dst.id
  have hstrict :
      getPassengers ((l1.foldl (fun acc b => addForPair acc b (rand a.id b.id)) a)).passengers dst.id + 1 ≤
      getPassengers (addForPair (l1.foldl (fun acc b => addForPair acc b (rand a.id b.id)) a) dst
        (rand a.id dst.id)).passengers dst.id :=
    addForPair_strict _ dst _ (by rw [hid1]; exact hne) (by rw [hst1]; exact ha) hb
  have hmono2 : getPassengers (addForPair (l1.foldl (fun acc b => addForPair acc b (rand a.id b.id)) a) dst
        (rand a.id dst.id)).passengers dst.id ≤
      getPassengers ((l2.foldl (fun acc b => addForPair acc b (rand a.id b.id))
        (addForPair (l1.foldl (fun acc b => addForPair acc b (rand a.id b.id)) a) dst
          (rand a.id dst.id)))).passengers dst.id :=
    foldl_addForPair_mono l2 _ _ dst.id
  omega

/-- C8: in daily passenger generation, the `hi = lo` case is vacuous — no
ordered pair of station classes yields an empty range (first conjunct; the
source in fact has no guard, and `secrets.randbelow(0)` would raise, but the
branch is unreachable) — and for `hi > lo` the generated count, `randbelow(hi
- lo) + lo` for a raw draw `r`, lies in `[lo, hi)`, every value of `[lo, hi)`
is realized by some draw, and the count is added to the origin's pending
counter for the destination. -/
theorem generation_nonempty_range :
    (∀ lc rc : StationClassEnum,
      (get_passenger_range lc rc).1 < (get_passenger_range lc rc).2) ∧
    (∀ (a b : Station) (r : Nat), a.id ≠ b.id → a.status = .ST_ENABLED →
      b.status = .ST_ENABLED →
      addForPair a b r = { a with passengers := (setPassengers a.passengers b.id
        (getPassengers a.passengers b.id +
          Int.ofNat (r % ((get_passenger_range a.station_class b.station_class).2
            - (get_passenger_range a.station_class b.station_class).1)
            + (get_passenger_range a.station_class b.station_class).1))) } ∧
      (get_passenger_range a.station_class b.station_class).1 ≤
        r % ((get_passenger_range a.station_class b.station_class).2
          - (get_passenger_range a.station_class b.station_class).1)
          + (get_passenger_range a.station_class b.station_class).1 ∧
      r % ((get_passenger_range a.station_class b.station_class).2
          - (get_passenger_range a.station_class b.station_class).1)
          + (get_passenger_range a.station_class b.station_class).1 <
        (get_passenger_range a.station_class b.station_class).2) ∧
    (∀ (lc rc : StationClassEnum) (c : Nat),
      (get_passenger_range lc rc).1 ≤ c → c < (get_passenger_range lc rc).2 →
      ∃ r : Nat, r % ((get_passenger_range lc rc).2 - (get_passenger_range lc rc).1)
        + (get_passenger_range lc rc).1 = c) := by
  refine ⟨fun lc rc => (range_lo_pos_lt_hi lc rc).2, ?_, ?_⟩
  · intro a b r hne ha hb
    have hguard : (a.id == b.id || a.status != StationStatusEnum.ST_ENABLED
        || b.status != StationStatusEnum.ST_ENABLED) = false := by
      simp [ha, hb, hne]
    have hlt := (range_lo_pos_lt_hi a.station_class b.station_class).2
    refine ⟨?_, Nat.le_add_left _ _, ?_⟩
    · unfold addForPair
      rw [if_neg (by simp [hguard])]
    · have := Nat.mod_lt r (show 0 < (get_passenger_range a.station_class b.station_class).2
        - (get_passenger_range a.station_class b.station_class).1 by omega)
      omega
  · intro lc rc c hc1 hc2
    refine ⟨c - (get_passenger_range lc rc).1, ?_⟩
    have hlt := (range_lo_pos_lt_hi lc rc).2
    rw [Nat.mod_eq_of_lt (by omega)]
    omega

/-- Witness for `generation_nonempty_range` at concrete input: the enabled
stations `stA`, `stB` with draw 3 — the pair of tier-5 classes yields range
`[1,2)`, so exactly one passenger is appended for destination `"bb"`. -/
theorem generation_nonempty_range_witness :
    addForPair stA stB 3 = { stA with passengers := [("bb", 1)] } ∧
    (get_passenger_range stA.station_class stB.station_class).1 ≤ 3 % 1 + 1 ∧
    3 % 1 + 1 < (get_passenger_range stA.station_class stB.station_class).2 := by
  have h := (generation_nonempty_range.2.1) stA stB 3 (by decide) (by decide) (by decide)
  exact ⟨by rw [h.1]; decide, h.2.1, h.2.2⟩

/-- C9: every ordered pair of station classes yields a range with
`1 ≤ lo < hi`; hence the argument passed to `randbelow` in `_add_passenger`
is always positive (its failure branch is unreachable), and one generation
pass adds at least one pending passenger at every origin toward every other
enabled destination: the per-origin row update `passRow` (of which
`_add_passenger` is the station-wise map, last conjunct) increases the
origin's counter for the destination by at least 1. -/
theorem generation_positive_count :
    (∀ lc rc : StationClassEnum,
      1 ≤ (get_passenger_range lc rc).1 ∧
      (get_passenger_range lc rc).1 < (get_passenger_range lc rc).2 ∧
      0 < (get_passenger_range lc rc).2 - (get_passenger_range lc rc).1) ∧
    (∀ (g : Game) (rand : RandSrc) (a dst : Station), a ∈ g.stations →
      dst ∈ g.stations → a.status = .ST_ENABLED → dst.status = .ST_ENABLED →
      a.id ≠ dst.id →
      getPassengers a.passengers dst.id + 1 ≤
        getPassengers (passRow g rand a).passengers dst.id) ∧
    (∀ (g : Game) (rand : RandSrc),
      (add_passenger g rand).stations = g.stations.map (passRow g rand)) := by
  refine ⟨by decide, ?_, fun g rand => rfl⟩
  intro g rand a dst _ hto ha hb hne
  exact passRow_adds_at_least_one g rand a dst hto hne ha hb

/-- Witness for `generation_positive_count`: in the concrete game `gameGen`
(two enabled tier-5 stations), one generation pass gives origin `stA` at
least one pending passenger toward `stB`. -/
theorem generation_positive_count_witness :
    getPassengers stA.passengers stB.id + 1 ≤
      getPassengers (passRow gameGen randZero stA).passengers stB.id := by
  exact generation_positive_count.2.1 gameGen randZero stA stB
    (by decide) (by decide) (by decide) (by decide) (by decide)

lemma auto_train_v1_single (g : Game) (tr : TrainV1) (hg : g.trains_v1 = [tr]) :
    auto_train_v1 g =
      if tr.distance_travelled + tr.speed > intDistance tr.from_station tr.to_station then
        { g with trains_v1 := [], money := g.money + tr.ticket_price * tr.passengers }
      else
        { g with trains_v1 := [{ tr with distance_travelled := tr.distance_travelled + tr.speed }] } := by
  unfold auto_train_v1 autoTrainStep
  rw [hg]
  by_cases h : tr.distance_travelled + tr.speed > intDistance tr.from_station tr.to_station
  · simp [h]
  · simp [h]

/-- C2: with a single tracked train of positive speed starting at travelled
distance 0, each application of `_auto_train_v1` adds the speed to
`distance_travelled`; through tick `D / speed` (where `D` is the truncated
origin-destination distance) the train is still tracked with travelled
`n·speed` and the ledger untouched, and at tick `D / speed + 1` — the first
tick whose travelled distance strictly exceeds `D` (last two conjuncts) — the
ledger is credited `ticket_price · passengers` and the train leaves the
tracked set. -/
theorem train_arrival_first_exceeding_tick (g : Game) (tr : TrainV1)
    (hg : g.trains_v1 = [tr]) (h0 : tr.distance_travelled = 0) (hs : 0 < tr.speed) :
    (∀ n, n ≤ intDistance tr.from_station tr.to_station / tr.speed →
      auto_train_v1^[n] g =
        { g with trains_v1 := [{ tr with distance_travelled := n * tr.speed }] }) ∧
    auto_train_v1^[intDistance tr.from_station tr.to_station / tr.speed + 1] g =
      { g with trains_v1 := [], money := g.money + tr.ticket_price * tr.passengers } ∧
    (intDistance tr.from_station tr.to_station / tr.speed + 1) * tr.speed >
      intDistance tr.from_station tr.to_station ∧
    (∀ m, m * tr.speed > intDistance tr.from_station tr.to_station →
      intDistance tr.from_station tr.to_station / tr.speed + 1 ≤ m) := by
  have key : ∀ n, n ≤ intDistance tr.from_station tr.to_station / tr.speed →
      auto_train_v1^[n] g =
        { g with trains_v1 := [{ tr with distance_travelled := n * tr.speed }] } := by
    intro n
    induction n with
    | zero =>
      intro _
      have htr : ({ tr with distance_travelled := 0 * tr.speed } : TrainV1) = tr := by
        cases tr
        simp_all
      rw [Function.iterate_zero_apply, htr, ← hg]
    | succ n ih =>
      intro hn
      have hn' : n ≤ intDistance tr.from_station tr.to_station / tr.speed := le_of_lt hn
      have hmul : (n + 1) * tr.speed ≤ intDistance tr.from_station tr.to_station :=
        (Nat.le_div_iff_mul_le hs).mp hn
      rw [Nat.succ_mul] at hmul
      rw [Function.iterate_succ_apply', ih hn',
        auto_train_v1_single _ { tr with distance_travelled := n * tr.speed } rfl]
      rw [if_neg (by simp only [gt_iff_lt, Nat.not_lt]; exact hmul)]
      simp [Nat.succ_mul]
  refine ⟨key, ?_, ?_, ?_⟩
  · have hlt : intDistance tr.from_station tr.to_station <
        (intDistance tr.from_station tr.to_station / tr.speed + 1) * tr.speed :=
      (Nat.div_lt_iff_lt_mul hs).mp (Nat.lt_succ_self _)
    rw [Nat.succ_mul] at hlt
    rw [Function.iterate_succ_apply', key _ (le_refl _),
      auto_train_v1_single _ { tr with distance_travelled :=
        (intDistance tr.from_station tr.to_station / tr.speed) * tr.speed } rfl]
    rw [if_pos (by simp only [gt_iff_lt]; exact hlt)]
  · exact (Nat.div_lt_iff_lt_mul hs).mp (Nat.lt_succ_self _)
  · intro m hm
    exact Nat.succ_le_of_lt ((Nat.div_lt_iff_lt_mul hs).mpr hm)

lemma intDistance_stA_stB : intDistance stA stB = 800 := by
  have hd : distSq stA stB = 640000 := rfl
  unfold intDistance
  rw [hd, show (640000 : ℕ) = 800 * 800 by norm_num]
  exact Nat.sqrt_eq 800

/-- Witness for `train_arrival_first_exceeding_tick`: the concrete train
`trainAB` — speed 80 over Euclidean distance 800 — is still en route with
travelled 800 after tick 10 and arrives at tick 11 (travelled 880,
`11·80 = 880 > 800`), crediting `12·100`. -/
theorem train_arrival_first_exceeding_tick_witness :
    auto_train_v1^[10] gameTrain =
      { gameTrain with trains_v1 := [{ trainAB with distance_travelled := 800 }] } ∧
    auto_train_v1^[11] gameTrain =
      { gameTrain with trains_v1 := [], money := gameTrain.money + 12 * 100 } ∧
    11 * trainAB.speed = 880 ∧ ¬ (10 * trainAB.speed > 800) := by
  have h := train_arrival_first_exceeding_tick gameTrain trainAB rfl rfl (by decide)
  have hAB : intDistance trainAB.from_station trainAB.to_station = 800 := intDistance_stA_stB
  have hsp : trainAB.speed = 80 := rfl
  rw [hAB, hsp] at h
  exact ⟨h.1 10 (by norm_num), h.2.1, rfl, by decide⟩

lemma maintance_foldl (l : List Station) (g : Game) :
    l.foldl
      (fun g' st =>
        if st.status = .ST_ENABLED then
          { g' with money := g'.money - get_maintance_fee st.station_class }
        else g')
      g
      = { g with money := g.money - maintTotal l } := by
  induction l generalizing g with
  | nil => simp [maintTotal]
  | cons st rest ih =>
    simp only [List.foldl_cons]
    by_cases h : st.status = .ST_ENABLED
    · rw [if_pos h, ih]
      unfold maintTotal
      simp only [List.filter_cons, h, beq_self_eq_true, if_pos, List.map_cons, List.sum_cons]
      congr 1
      omega
    · rw [if_neg h, ih]
      unfold maintTotal
      have hb : (st.status == StationStatusEnum.ST_ENABLED) = false := by
        simp [h]
      simp [List.filter_cons, hb]

/-- C6: the method `_station_maintance` debits the ledger by exactly the sum of the
maintenance fees of the stations with status "enabled" when the (already
advanced) date's day-of-month is 1, and is a no-op on the game state
otherwise; no field other than `money` ever changes, and the per-class fees
are 250/200/150/100/50 for tiers 1..5. -/
theorem monthly_maintenance_effect (g : Game) :
    station_maintance g =
      { g with money := g.money - (if g.date.day = 1 then maintTotal g.stations else 0) } ∧
    get_maintance_fee .CLASS_1 = 250 ∧ get_maintance_fee .CLASS_2 = 200 ∧
    get_maintance_fee .CLASS_3 = 150 ∧ get_maintance_fee .CLASS_4 = 100 ∧
    get_maintance_fee .CLASS_5 = 50 := by
  refine ⟨?_, rfl, rfl, rfl, rfl, rfl⟩
  unfold station_maintance
  by_cases h : g.date.day = 1
  · rw [if_neg (by simp [h]), maintance_foldl, if_pos h]
  · rw [if_pos h, if_neg h]
    simp

/-- C5: the solvency check is the last step of `tick`, applied to the state
produced by the four phases (train transit, date advance, maintenance,
passenger generation, in that order — `tickPhases`): the tick yields signal
`-1` exactly when that state's balance is negative and `0` exactly when it is
`≥ 0` (including 0), always returning that state; and after a bankrupt tick
the main loop stops — the remaining inputs are never processed. -/
theorem solvency_check_terminal (g : Game) (rand : RandSrc) :
    (tick g rand = (tickPhases g rand, -1) ↔ (tickPhases g rand).money < 0) ∧
    (tick g rand = (tickPhases g rand, 0) ↔ 0 ≤ (tickPhases g rand).money) ∧
    (∀ rest : List (Cmd × RandSrc), (tickPhases g rand).money < 0 →
      mainLoop g ((Cmd.cont, rand) :: rest) = some (tickPhases g rand)) := by
  refine ⟨?_, ?_, ?_⟩
  · unfold tick
    by_cases h : (tickPhases g rand).money < 0
    · simp [h]
    · simp [h]
  · unfold tick
    by_cases h : (tickPhases g rand).money < 0
    · simp [h]
    · simp [h]
      omega
  · intro rest h
    have htick : tick g rand = (tickPhases g rand, -1) := by
      unfold tick
      simp [h]
    simp [mainLoop, gameloop, htick]

/-- Witness for `solvency_check_terminal`: the concrete game `bankruptGame`
(balance −5) returns signal −1 on its next tick and the main loop ignores
the rest of the input list. -/
theorem solvency_check_terminal_witness :
    mainLoop bankruptGame [(Cmd.cont, randZero), (Cmd.cont, randZero)] =
      some (tickPhases bankruptGame randZero) := by
  exact (solvency_check_terminal bankruptGame randZero).2.2 [(Cmd.cont, randZero)] (by decide)

lemma get_station_by_id_updateFirstById (l : List Station) (id : String)
    (st new : Station) (h : get_station_by_id l id = some st) (hid : new.id = st.id) :
    get_station_by_id (updateFirstById l id new) id = some new := by
  induction l with
  | nil => simp [get_station_by_id] at h
  | cons a rest ih =>
    unfold get_station_by_id at h ⊢
    unfold updateFirstById
    by_cases ha : a.id = id
    · rw [List.find?_cons_of_pos _ (by simp [ha])] at h
      have hst : a = st := by injection h
      rw [if_pos (by simp [ha])]
      rw [List.find?_cons_of_pos _ (by simp [hid, ← hst, ha])]
    · rw [List.find?_cons_of_neg _ (by simp [ha])] at h
      rw [if_neg (by simp [ha])]
      rw [List.find?_cons_of_neg _ (by simp [ha])]
      exact ih h

/-- C3: a confirmed dispatch between two resolved stations debits the ledger
by exactly `int(GAS_FEE · euclideanDistance)` (`gasCost`), decrements the
origin's pending count toward the destination by exactly
`delivered = min(TRAIN_CAPACITY, pending)`, appends a new train carrying
`delivered` passengers to the tracked set, and leaves the new pending count
non-negative whenever it was non-negative before. -/
theorem dispatch_effects (g : Game) (rand : RandSrc) (from_id to_id : String)
    (from_station to_station : Station)
    (hf : get_station_by_id g.stations from_id = some from_station)
    (ht : get_station_by_id g.stations to_id = some to_station) :
    ∃ g' st',
      gameloop g (Cmd.create_train from_id to_id ("y")) rand = some (g', 0) ∧
      st' = { from_station with passengers := (setPassengers from_station.passengers to_id
        (getPassengers from_station.passengers to_id
          - min 240 (getPassengers from_station.passengers to_id))) } ∧
      g'.money = g.money - (gasCost from_station to_station : Int) ∧
      g'.stations = updateFirstById g.stations from_id st' ∧
      get_station_by_id g'.stations from_id = some st' ∧
      getPassengers st'.passengers to_id =
        getPassengers from_station.passengers to_id
          - min 240 (getPassengers from_station.passengers to_id) ∧
      g'.trains_v1 = g.trains_v1 ++
        [{ from_station := st', to_station := to_station, speed := 80, capacity := 240,
           ticket_price := 12,
           passengers := min 240 (getPassengers from_station.passengers to_id),
           distance_travelled := 0 }] ∧
      (0 ≤ getPassengers from_station.passengers to_id →
        0 ≤ getPassengers from_station.passengers to_id
          - min 240 (getPassengers from_station.passengers to_id)) := by
  have heq : gameloop g (Cmd.create_train from_id to_id ("y")) rand =
      some ({ g with
        money := g.money - (gasCost from_station to_station : Int),
        stations := updateFirstById g.stations from_id
          ({ from_station with passengers := (setPassengers from_station.passengers to_id
            (getPassengers from_station.passengers to_id
              - min 240 (getPassengers from_station.passengers to_id))) }),
        trains_v1 := g.trains_v1 ++
          [{ from_station := { from_station with passengers :=
               (setPassengers from_station.passengers to_id
                 (getPassengers from_station.passengers to_id
                   - min 240 (getPassengers from_station.passengers to_id))) },
             to_station := to_station, speed := 80, capacity := 240, ticket_price := 12,
             passengers := min 240 (getPassengers from_station.passengers to_id),
             distance_travelled := 0 }] }, 0) := by
    simp only [gameloop, hf, ht]
    rw [if_pos trivial]
  refine ⟨_, _, heq, rfl, rfl, rfl, ?_, ?_, rfl, ?_⟩
  · exact get_station_by_id_updateFirstById g.stations from_id from_station _ hf rfl
  · exact getPassengers_set_self _ _ _
  · intro hp
    rcases le_total 240 (getPassengers from_station.passengers to_id) with hle | hle
    · rw [min_eq_left hle]
      omega
    · rw [min_eq_right hle]
      omega

lemma gasCost_unfold (a b : Station) :
    gasCost a b = Nat.sqrt (46 * 46 * distSq a b) / 100 := rfl

lemma gasCost_stA3_stB3 : gasCost stA3 stB3 = 2 := by
  have h : 46 * 46 * distSq stA3 stB3 = 230 * 230 := by
    rw [show distSq stA3 stB3 = 25 from rfl]
  have h2 : Nat.sqrt (46 * 46 * distSq stA3 stB3) = 230 := by
    rw [h]
    exact Nat.sqrt_eq 230
  rw [gasCost_unfold, h2]

/-- Witness for `dispatch_effects`: in `gameDispatch` (stations `"aa"` at the
origin with 300 pending toward `"bb"`, and `"bb"` at (3,4)), the confirmed
dispatch costs `int(0.46·5) = 2`, delivers `min(240,300) = 240` passengers,
and leaves 60 pending. -/
theorem dispatch_effects_witness :
    ((gasCost stA3 stB3 : Int) = 2 ∧ getPassengers stA3.passengers ("bb") = 300) ∧
    ∃ g' st',
      gameloop gameDispatch (Cmd.create_train ("aa") ("bb") ("y")) randZero = some (g', 0) ∧
      st' = { stA3 with passengers := (setPassengers stA3.passengers ("bb")
        (getPassengers stA3.passengers ("bb") - min 240 (getPassengers stA3.passengers ("bb")))) } ∧
      g'.money = gameDispatch.money - (gasCost stA3 stB3 : Int) ∧
      g'.stations = updateFirstById gameDispatch.stations ("aa") st' ∧
      get_station_by_id g'.stations ("aa") = some st' ∧
      getPassengers st'.passengers ("bb") =
        getPassengers stA3.passengers ("bb") - min 240 (getPassengers stA3.passengers ("bb")) ∧
      g'.trains_v1 = gameDispatch.trains_v1 ++
        [{ from_station := st', to_station := stB3, speed := 80, capacity := 240,
           ticket_price := 12, passengers := min 240 (getPassengers stA3.passengers ("bb")),
           distance_travelled := 0 }] ∧
      (0 ≤ getPassengers stA3.passengers ("bb") →
        0 ≤ getPassengers stA3.passengers ("bb") - min 240 (getPassengers stA3.passengers ("bb"))) := by
  refine ⟨⟨?_, by decide⟩,
    dispatch_effects gameDispatch randZero ("aa") ("bb") stA3 stB3 (by decide) (by decide)⟩
  rw [gasCost_stA3_stB3]
  norm_num

/-- C4: for a station with status "unused", a confirmed purchase with
`balance - acquisitionPrice ≥ 0` sets the status to "enabled" and debits the
ledger by exactly the acquisition price; a purchase attempt with insufficient
funds changes nothing, and a purchase of a station whose status is not
"unused" changes nothing. -/
theorem purchase_effects (g : Game) (rand : RandSrc) (sid : String) (station : Station)
    (h : get_station_by_id g.stations sid = some station) :
    (station.status = .ST_UNUSED → 0 ≤ g.money - station.buy_pricing →
      gameloop g (Cmd.buy sid ("y")) rand =
        some ({ g with
          stations := (updateFirstById g.stations sid { station with status := .ST_ENABLED }),
          money := g.money - station.buy_pricing }, 0) ∧
      get_station_by_id (updateFirstById g.stations sid { station with status := .ST_ENABLED }) sid
        = some { station with status := .ST_ENABLED }) ∧
    (station.status = .ST_UNUSED → g.money - station.buy_pricing < 0 →
      ∀ confirm, gameloop g (Cmd.buy sid confirm) rand = some (g, 0)) ∧
    (station.status ≠ .ST_UNUSED →
      ∀ confirm, gameloop g (Cmd.buy sid confirm) rand = some (g, 0)) := by
  refine ⟨?_, ?_, ?_⟩
  · intro hst hmoney
    constructor
    · simp only [gameloop, h]
      rw [if_pos hst, if_neg (by omega), if_pos trivial]
    · exact get_station_by_id_updateFirstById g.stations sid station _ h rfl
  · intro hst hmoney confirm
    simp only [gameloop, h]
    rw [if_pos hst, if_pos hmoney]
  · intro hst confirm
    simp only [gameloop, h]
    rw [if_neg hst]

/-- Witness for `purchase_effects`: buying station `"cc"` (price 300,
unused) with balance 2000 enables it and leaves 1700; the same purchase with
balance 5 is rejected with no state change. -/
theorem purchase_effects_witness :
    (gameloop gameBuy (Cmd.buy ("cc") ("y")) randZero =
      some ({ gameBuy with
        stations := (updateFirstById gameBuy.stations ("cc") { stBuy with status := .ST_ENABLED }),
        money := gameBuy.money - stBuy.buy_pricing }, 0)) ∧
    gameloop gamePoor (Cmd.buy ("cc") ("y")) randZero = some (gamePoor, 0) := by
  have h1 := (purchase_effects gameBuy randZero ("cc") stBuy (by decide)).1 (by decide) (by decide)
  have h2 := (purchase_effects gamePoor randZero ("cc") stBuy (by decide)).2.1 (by decide) (by decide) "y"
  exact ⟨h1.1, h2⟩

/-- C7, settled against the source as a code bug: a dispatch or calculator
command naming an unresolvable station id is locally rejected with no state
change and signal 0 (conjuncts 2-4), but the purchase branch reads `.status`
of the `None` returned by `get_station_by_id` without a guard, so an
unresolvable id there raises an uncaught `AttributeError` (modelled as
`none`) instead of being rejected — the simulation does not continue. -/
theorem unresolved_purchase_crashes :
    gameloop gameDispatch (Cmd.buy ("zz") ("y")) randZero = none ∧
    gameloop gameDispatch (Cmd.create_train ("zz") ("bb") ("y")) randZero = some (gameDispatch, 0) ∧
    gameloop gameDispatch (Cmd.create_train ("aa") ("zz") ("y")) randZero = some (gameDispatch, 0) ∧
    gameloop gameDispatch (Cmd.calculator ["zz", "bb"]) randZero = some (gameDispatch, 0) := by
  refine ⟨by decide, by decide, by decide, by decide⟩

/-- C1: for every ordered pair of station classes, `get_passenger_range`
returns exactly the range described by the spec — levels `6-tier`, `base =
(1+lo)*hi`, the `[floor(base*0.8), floor(base*1.2))` band when
`levelFrom ≤ levelTo` and the `[floor(base*0.64), floor(base*0.8))` band when
`levelFrom > levelTo`, the branch decided on the original (pre-swap) levels;
in particular the pair of classes (5,5) yields the range `[1,2)`, so any
draw from it produces exactly 1 passenger. -/
theorem passenger_range_matches_spec :
    (∀ lc rc : StationClassEnum, get_passenger_range lc rc = dailyPassengerRange_spec lc rc) ∧
    get_passenger_range .CLASS_5 .CLASS_5 = (1, 2) ∧
    (∀ r : Nat,
      r % ((get_passenger_range .CLASS_5 .CLASS_5).2 - (get_passenger_range .CLASS_5 .CLASS_5).1)
        + (get_passenger_range .CLASS_5 .CLASS_5).1 = 1) := by
  refine ⟨by decide, by decide, ?_⟩
  intro r
  show r % (2 - 1) + 1 = 1
  omega

/-- C10: the arrival test the code implements — integer
`distance_travelled` strictly greater than the truncated distance
`int(euclideanDistance)` — is equivalent to the test against the untruncated
real distance: for an integer travelled amount `t`, `t > ⌊d⌋ ↔ t > d`. -/
theorem arrival_test_refines_real_distance (tr : TrainV1) :
    (tr.distance_travelled > intDistance tr.from_station tr.to_station) ↔
      ((tr.distance_travelled : ℝ) > Real.sqrt (distSq tr.from_station tr.to_station)) := by
  set t := tr.distance_travelled
  set n := distSq tr.from_station tr.to_station
  unfold intDistance
  constructor
  · intro h
    have h1 : Real.sqrt (n : ℝ) < (Nat.sqrt n : ℝ) + 1 := Real.real_sqrt_lt_nat_sqrt_succ
    have h2 : ((Nat.sqrt n : ℕ) : ℝ) + 1 ≤ (t : ℝ) := by
      have : (Nat.sqrt n) + 1 ≤ t := h
      exact_mod_cast this
    linarith
  · intro h
    have h1 : ((Nat.sqrt n : ℕ) : ℝ) ≤ Real.sqrt (n : ℝ) := Real.nat_sqrt_le_real_sqrt
    have h2 : ((Nat.sqrt n : ℕ) : ℝ) < (t : ℝ) := lt_of_le_of_lt h1 h
    exact_mod_cast h2

end TrainGame
